import Mathlib

/-!
Shallow embedding of the media-parser plugin's core (router, resource
manager, config validation, download handlers, download manager) and
proofs of the specification claims about it.

Python strings are modelled as `List Char` (the URLs and paths involved
are ASCII).  Python floats carrying sizes in MB are modelled as `Rat`.
Network I/O is modelled by deterministic per-URL oracles collected in
environment structures; a download handler becomes a pure function of
its environment.
-/

namespace MediaParser

/-- Characters of a Python string. -/
abbrev Str := List Char

/-- Embedding of Python `str.lower` on one character (ASCII range, as in
the source's URLs). -/
def charLower (c : Char) : Char :=
  if 65 ≤ c.toNat ∧ c.toNat ≤ 90 then Char.ofNat (c.toNat + 32) else c

/-- Embedding of Python `str.lower`. -/
def sLower (s : Str) : Str := s.map charLower

/-- Prefix of the string before the first occurrence of `c`:
Python `s.split(c)[0]`. -/
def takeBefore (c : Char) : Str → Str
  | [] => []
  | x :: xs => if x = c then [] else x :: takeBefore c xs

/-- Boolean test: does `s` start with `pat`? -/
def startsWithL : Str → Str → Bool
  | [], _ => true
  | _ :: _, [] => false
  | p :: ps, x :: xs => p = x && startsWithL ps xs

/-- Boolean substring test: Python `pat in s`. -/
def containsL (pat : Str) : Str → Bool
  | [] => startsWithL pat []
  | s@(_ :: xs) => startsWithL pat s || containsL pat xs

/-- Boolean test: does `s` end with `pat`? -/
def endsWithL (pat s : Str) : Bool :=
  startsWithL pat.reverse s.reverse

/-- Media kinds returned by the router. -/
inductive MediaType | m3u8 | image | video
deriving DecidableEq, Repr

/-- Image extension list of `detect_media_type` (`router.py`). -/
def imageExts : List Str :=
  ["jpg", "jpeg", "png", "gif", "webp", "bmp", "svg"].map String.data

/-- Video extension list of `detect_media_type` (`router.py`); note the
extension-loop list omits `3gp`/`ts`, which appear only in the regex
fallback. -/
def videoExts : List Str :=
  ["mp4", "mkv", "mov", "avi", "flv", "f4v", "webm", "wmv", "m4v"].map String.data

/-- Character of `s` at Python index `-(k+1)` (i.e. `k` from the end);
out-of-range (impossible on the guarded call sites) yields `'a'`. -/
def charFromEnd (s : Str) (k : Nat) : Char :=
  s.reverse.getD k 'a'

/-- One iteration of the extension loop in `detect_media_type`: the
`endswith`/`'.ext?' in url` test on the full lowered URL, then the
word-boundary test on the query-stripped path. -/
def extCheck (url_lower url_path : Str) (ext : Str) : Bool :=
  endsWithL ('.' :: ext) url_lower ||
  containsL ('.' :: ext ++ ['?']) url_lower ||
  (endsWithL ext url_path &&
    (url_path.length == ext.length || !(charFromEnd url_path ext.length).isAlpha))

/-- Separator class `[._!-]` of the fallback regexes in `router.py`. -/
def sepChars : Str := ['.', '_', '!', '-']

/-- Tail group `(_|\d|$)` of the fallback regexes. -/
def tailBoundary : Str → Bool
  | [] => true
  | c :: _ => c = '_' || c.isDigit

/-- Does one of `exts` followed by the tail group start at `rest`? -/
def extAfterSep (exts : List Str) (rest : Str) : Bool :=
  exts.any (fun e => startsWithL e rest && tailBoundary (rest.drop e.length))

/-- Search for `[._!-](ext1|ext2|...)(_|\d|$)` anywhere in the string
(embedding of `re.search` with the fallback patterns). -/
def patSearch (exts : List Str) : Str → Bool
  | [] => false
  | c :: rest => (sepChars.contains c && extAfterSep exts rest) || patSearch exts rest

/-- Extension alternatives of the fallback image regex. -/
def imageRegexExts : List Str := imageExts

/-- Extension alternatives of the fallback video regex (here `3gp` and
`ts` are included). -/
def videoRegexExts : List Str := videoExts ++ ["3gp".data, "ts".data]

/-- Embedding of `detect_media_type` (`src/core/downloader/router.py`).
The extension loops are collapsed to list-`any` per media kind, scanning
the image kind before the video kind exactly as the Python dict
iteration does; this preserves the returned value. -/
def detect_media_type (url : Str) : MediaType :=
  if url = [] then .video
  else
    let url_lower := sLower url
    let url_path := takeBefore '#' (takeBefore '?' url_lower)
    if containsL (".m3u8".data) url_lower then .m3u8
    else if imageExts.any (extCheck url_lower url_path) then .image
    else if videoExts.any (extCheck url_lower url_path) then .video
    else if patSearch imageRegexExts url_lower then .image
    else if patSearch videoRegexExts url_lower then .video
    else .video

/-! ## Resource manager (`src/utils/resource_manager.py`) -/

/-- File system contents: the set of existing paths. -/
abbrev FS := List Str

/-- State of a `ResourceManager`: the two registered path sets and the
`_cleaned` flag. -/
structure RM where
  temp_files : List Str
  cache_files : List Str
  cleaned : Bool
deriving DecidableEq, Repr

/-- Embedding of `ResourceManager._cleanup_files` on one path set: each
truthy, existing path is unlinked unless `os.unlink` raises (oracle
`fail`); raised errors are logged and swallowed, leaving the file in
place and uncounted.  Returns the file system and the cleaned count. -/
def cleanupFilesAux (fail : Str → Bool) : List Str → FS → FS × Nat
  | [], fs => (fs, 0)
  | p :: ps, fs =>
    if p ≠ [] ∧ fs.contains p then
      if fail p then cleanupFilesAux fail ps fs
      else
        let res := cleanupFilesAux fail ps (fs.filter (fun q => q ≠ p))
        (res.1, res.2 + 1)
    else cleanupFilesAux fail ps fs

/-- Embedding of `cleanup_temp_files`; the Python set is cleared. -/
def RM.cleanup_temp_files (fail : Str → Bool) (rm : RM) (fs : FS) : RM × FS × Nat :=
  let res := cleanupFilesAux fail rm.temp_files fs
  ({ rm with temp_files := [] }, res.1, res.2)

/-- Embedding of `cleanup_cache_files`; the Python set is cleared. -/
def RM.cleanup_cache_files (fail : Str → Bool) (rm : RM) (fs : FS) : RM × FS × Nat :=
  let res := cleanupFilesAux fail rm.cache_files fs
  ({ rm with cache_files := [] }, res.1, res.2)

/-- Embedding of `ResourceManager.cleanup_all`. -/
def RM.cleanup_all (fail : Str → Bool) (rm : RM) (fs : FS) : RM × FS × Nat :=
  if rm.cleaned then (rm, fs, 0)
  else
    let rm1 := { rm with cleaned := true }
    let t := rm1.cleanup_temp_files fail fs
    let c := t.1.cleanup_cache_files fail t.2.1
    (c.1, c.2.1, t.2.2 + c.2.2)

/-- Embedding of `ResourceManager.get_stats`. -/
def RM.get_stats (rm : RM) : Nat × Nat × Nat × Bool :=
  (rm.temp_files.length, rm.cache_files.length,
   rm.temp_files.length + rm.cache_files.length, rm.cleaned)

/-! ## Config validation (`src/core/config_manager.py`) -/

/-- Python value for a numeric config entry: an `int`, a `float`, or a
value of some other type (failing `isinstance(x, (int, float))`). -/
inductive PyNum | int (n : Int) | float (q : Rat) | notNum
deriving DecidableEq, Repr

/-- Python `isinstance(x, (int, float))`. -/
def PyNum.isNumber : PyNum → Bool
  | .notNum => false
  | _ => true

/-- Python `isinstance(x, int)`. -/
def PyNum.isInt : PyNum → Bool
  | .int _ => true
  | _ => false

/-- Numeric value (only consulted when `isNumber`; Python would have
raised before comparing otherwise). -/
def PyNum.val : PyNum → Rat
  | .int n => n
  | .float q => q
  | .notNum => 0

/-- Modelled from the spec: the newer `constants` module
(`DEFAULT_MAX_MEDIA_SIZE_MB` …) imported by `config_manager.py` is not
under `src/`; the spec gives `max_media_size_mb` default unlimited and a
100 MB clamp for the large threshold, and the older in-tree constants
give 40.0 as the large default and 3 concurrent downloads. -/
def DEFAULT_MAX_MEDIA_SIZE_MB : PyNum := .float 0

/-- Modelled from the spec: see `DEFAULT_MAX_MEDIA_SIZE_MB`. -/
def DEFAULT_LARGE_MEDIA_THRESHOLD_MB : PyNum := .float 40

/-- Modelled from the spec: see `DEFAULT_MAX_MEDIA_SIZE_MB`. -/
def DEFAULT_MAX_CONCURRENT_DOWNLOADS : PyNum := .int 3

/-- Modelled from the spec: see `DEFAULT_MAX_MEDIA_SIZE_MB`. -/
def MAX_LARGE_MEDIA_THRESHOLD_MB : Rat := 100

/-- Relevant slice of the plugin configuration dict; `none` means the
key is absent and the `.get` default applies. -/
structure PluginConfig where
  max_media_size_mb : Option PyNum := none
  large_media_threshold_mb : Option PyNum := none
  max_concurrent_downloads : Option PyNum := none
  twitter_proxy_url : Option Str := none
  twitter_use_image_proxy : Bool := false
  twitter_use_video_proxy : Bool := false
deriving DecidableEq

/-- Which check of `_validate_config` raised `ConfigurationError`. -/
inductive ConfigErr | maxMediaSize | largeThreshold | maxConcurrent | proxyMissing | proxyScheme
deriving DecidableEq, Repr

/-- Embedding of `ConfigManager._validate_config`
(`src/core/config_manager.py`): the checks run in source order and the
first failing one raises. -/
def validate_config (c : PluginConfig) : Except ConfigErr Unit :=
  let mms := c.max_media_size_mb.getD DEFAULT_MAX_MEDIA_SIZE_MB
  if ¬mms.isNumber ∨ mms.val < 0 then .error .maxMediaSize
  else
    let lmt := c.large_media_threshold_mb.getD DEFAULT_LARGE_MEDIA_THRESHOLD_MB
    if ¬lmt.isNumber ∨ lmt.val < 0 then .error .largeThreshold
    else
      let mcd := c.max_concurrent_downloads.getD DEFAULT_MAX_CONCURRENT_DOWNLOADS
      if ¬mcd.isInt ∨ mcd.val < 1 then .error .maxConcurrent
      else
        let purl := c.twitter_proxy_url.getD []
        if (c.twitter_use_image_proxy ∨ c.twitter_use_video_proxy) ∧ purl = [] then
          .error .proxyMissing
        else if purl ≠ [] ∧
            ¬(startsWithL "http://".data purl ∨ startsWithL "https://".data purl ∨
              startsWithL "socks5://".data purl) then
          .error .proxyScheme
        else .ok ()

/-- Concrete config for the C10 witness: both proxy flags off, proxy URL
`ftp://p`. -/
def cfgProxyBad : PluginConfig := { twitter_proxy_url := some "ftp://p".data }

/-! ## MD5 (embedding of `hashlib.md5(url.encode()).hexdigest()`)

Machine words are `Nat` kept below `2^32` by explicit `% (2^32)`.
The bitwise operations are written by structural recursion on a 32-bit
fuel so that concrete digests reduce in the kernel. -/

/-- Combine the low `k` bits of `a` and `b` with the boolean gate `f`. -/
def bitFold (f : Bool → Bool → Bool) : Nat → Nat → Nat → Nat
  | 0, _, _ => 0
  | k + 1, a, b =>
    (if f (a % 2 = 1) (b % 2 = 1) then 1 else 0) + 2 * bitFold f k (a / 2) (b / 2)

/-- 32-bit bitwise and. -/
def and32 (a b : Nat) : Nat := bitFold (fun x y => x && y) 32 a b

/-- 32-bit bitwise or. -/
def or32 (a b : Nat) : Nat := bitFold (fun x y => x || y) 32 a b

/-- 32-bit bitwise xor. -/
def xor32 (a b : Nat) : Nat := bitFold (fun x y => x ≠ y) 32 a b

/-- 32-bit bitwise complement (arguments are kept below `2^32`). -/
def not32 (a : Nat) : Nat := 4294967295 - a % 4294967296

/-- 32-bit modular addition. -/
def add32 (a b : Nat) : Nat := (a + b) % 4294967296

/-- 32-bit left rotation of a word already below `2^32`. -/
def rotl32 (x s : Nat) : Nat := (x * 2 ^ s) % 4294967296 + x / 2 ^ (32 - s)

/-- Little-endian bytes of `n`, `k` bytes long. -/
def leBytes : Nat → Nat → List Nat
  | 0, _ => []
  | k + 1, n => n % 256 :: leBytes k (n / 256)

/-- Little-endian 32-bit words of a byte list. -/
def toWords : List Nat → List Nat
  | b0 :: b1 :: b2 :: b3 :: rest =>
    (b0 + 256 * (b1 + 256 * (b2 + 256 * b3))) :: toWords rest
  | _ => []

/-- MD5 sine-derived round constants. -/
def md5K : List Nat :=
  [0xd76aa478, 0xe8c7b756, 0x242070db, 0xc1bdceee,
   0xf57c0faf, 0x4787c62a, 0xa8304613, 0xfd469501,
   0x698098d8, 0x8b44f7af, 0xffff5bb1, 0x895cd7be,
   0x6b901122, 0xfd987193, 0xa679438e, 0x49b40821,
   0xf61e2562, 0xc040b340, 0x265e5a51, 0xe9b6c7aa,
   0xd62f105d, 0x02441453, 0xd8a1e681, 0xe7d3fbc8,
   0x21e1cde6, 0xc33707d6, 0xf4d50d87, 0x455a14ed,
   0xa9e3e905, 0xfcefa3f8, 0x676f02d9, 0x8d2a4c8a,
   0xfffa3942, 0x8771f681, 0x6d9d6122, 0xfde5380c,
   0xa4beea44, 0x4bdecfa9, 0xf6bb4b60, 0xbebfbc70,
   0x289b7ec6, 0xeaa127fa, 0xd4ef3085, 0x04881d05,
   0xd9d4d039, 0xe6db99e5, 0x1fa27cf8, 0xc4ac5665,
   0xf4292244, 0x432aff97, 0xab9423a7, 0xfc93a039,
   0x655b59c3, 0x8f0ccc92, 0xffeff47d, 0x85845dd1,
   0x6fa87e4f, 0xfe2ce6e0, 0xa3014314, 0x4e0811a1,
   0xf7537e82, 0xbd3af235, 0x2ad7d2bb, 0xeb86d391]

/-- MD5 per-round left-rotation amounts. -/
def md5S : List Nat :=
  [7, 12, 17, 22, 7, 12, 17, 22, 7, 12, 17, 22, 7, 12, 17, 22,
   5, 9, 14, 20, 5, 9, 14, 20, 5, 9, 14, 20, 5, 9, 14, 20,
   4, 11, 16, 23, 4, 11, 16, 23, 4, 11, 16, 23, 4, 11, 16, 23,
   6, 10, 15, 21, 6, 10, 15, 21, 6, 10, 15, 21, 6, 10, 15, 21]

/-- One MD5 round on state `(a, b, c, d)` with message words `M`. -/
def md5Round (M : List Nat) (st : Nat × Nat × Nat × Nat) (i : Nat) :
    Nat × Nat × Nat × Nat :=
  let a := st.1
  let b := st.2.1
  let c := st.2.2.1
  let d := st.2.2.2
  let fg : Nat × Nat :=
    if i < 16 then (or32 (and32 b c) (and32 (not32 b) d), i)
    else if i < 32 then (or32 (and32 d b) (and32 (not32 d) c), (5 * i + 1) % 16)
    else if i < 48 then (xor32 (xor32 b c) d, (3 * i + 5) % 16)
    else (xor32 c (or32 b (not32 d)), (7 * i) % 16)
  let f := add32 fg.1 (add32 a (add32 (md5K.getD i 0) (M.getD fg.2 0)))
  (d, add32 b (rotl32 f (md5S.getD i 0)), b, c)

/-- Process one 64-byte block. -/
def md5Block (block : List Nat) (st : Nat × Nat × Nat × Nat) :
    Nat × Nat × Nat × Nat :=
  let M := toWords block
  let r := (List.range 64).foldl (md5Round M) st
  (add32 st.1 r.1, add32 st.2.1 r.2.1, add32 st.2.2.1 r.2.2.1, add32 st.2.2.2 r.2.2.2)

/-- Process the padded message 64 bytes at a time (`fuel` bounds the
number of blocks; it is instantiated with the message length). -/
def md5Blocks : Nat → List Nat → Nat × Nat × Nat × Nat → Nat × Nat × Nat × Nat
  | 0, _, st => st
  | _ + 1, [], st => st
  | fuel + 1, l, st => md5Blocks fuel (l.drop 64) (md5Block (l.take 64) st)

/-- MD5 padding: `0x80`, zeros to 56 mod 64, the bit length as eight
little-endian bytes. -/
def md5Pad (msg : List Nat) : List Nat :=
  msg ++ 0x80 :: List.replicate ((119 - msg.length % 64) % 64) 0 ++
    leBytes 8 (msg.length * 8 % 18446744073709551616)

/-- MD5 digest of a byte list, as 16 bytes. -/
def md5Digest (msg : List Nat) : List Nat :=
  let padded := md5Pad msg
  let st := md5Blocks padded.length padded (0x67452301, 0xefcdab89, 0x98badcfe, 0x10325476)
  leBytes 4 st.1 ++ leBytes 4 st.2.1 ++ leBytes 4 st.2.2.1 ++ leBytes 4 st.2.2.2

/-- Lowercase hex character of a nibble. -/
def hexChar (n : Nat) : Char := "0123456789abcdef".data.getD n '0'

/-- Hex digest string of a byte list (Python `hexdigest()`). -/
def md5hex (msg : List Nat) : Str :=
  (md5Digest msg).foldr (fun b acc => hexChar (b / 16) :: hexChar (b % 16) :: acc) []

/-! ## Media id (`DownloadManager._generate_media_id`) -/

/-- Remainder of `s` after the first occurrence of `pat`, if any. -/
def afterFirstSubstr (pat : Str) : Str → Option Str
  | [] => if pat = [] then some [] else none
  | s@(_ :: xs) =>
    if startsWithL pat s then some (s.drop pat.length) else afterFirstSubstr pat xs

/-- Path component of `urlparse(url)`: the fragment (after the first
`#`) and the query (after the first `?`) are removed, and for URLs of
the shape `scheme://netloc/...` the netloc is dropped; a URL without
`://` is all path, as in `urlparse`.  (Scheme-only URLs such as
`mailto:x` are outside the shapes this plugin handles.) -/
def pyUrlPath (url : Str) : Str :=
  let s := takeBefore '?' (takeBefore '#' url)
  match afterFirstSubstr "://".data s with
  | some rest => rest.dropWhile (fun c => c ≠ '/')
  | none => s

/-- Python `s.strip('/')`. -/
def stripSlashes (s : Str) : Str :=
  ((s.dropWhile (fun c => c = '/')).reverse.dropWhile (fun c => c = '/')).reverse

/-- Is the first character a digit? -/
def headIsDigit : Str → Bool
  | [] => false
  | d :: _ => d.isDigit

/-- Embedding of `re.search(r'/(\d+)', path)`: the first maximal digit
run immediately preceded by `/`. -/
def findSlashDigits : Str → Option Str
  | [] => none
  | c :: rest =>
    if c = '/' && headIsDigit rest then some (rest.takeWhile Char.isDigit)
    else findSlashDigits rest

/-- Embedding of `DownloadManager._generate_media_id`
(`src/core/download_manager.py`): the digit run found by
`re.search(r'/(\d+)', parsed.path.strip('/'))` if any, else the first 8
hex characters of the URL's MD5.  URL bytes are the characters' code
points (the URLs involved are ASCII, where UTF-8 agrees). -/
def generate_media_id (url : Str) : Str :=
  let path := stripSlashes (pyUrlPath url)
  match findSlashDigits path with
  | some d => d
  | none => (md5hex (url.map Char.toNat)).take 8

/-! ## URL-group fallback (`_download_one_image`, `batch_download_videos`) -/

/-- Try the URLs of a group in order with the per-URL oracle `f`, one
attempt per URL, stopping at the first success.  Also returns the list
of attempted URLs, in order. -/
def tryUrls {α : Type} (f : Str → Option α) : List Str → Option α × List Str
  | [] => (none, [])
  | u :: rest =>
    match f u with
    | some r => (some r, [u])
    | none =>
      let res := tryUrls f rest
      (res.1, u :: res.2)

/-- One attempt of `_download_one_image`: a call to
`download_image_to_file` (modelled by the per-URL oracle `img`, as that
function is not under `src/`) counts as a success only when the
returned temp path is truthy (`if temp_path:`). -/
def imgAttempt (img : Str → Option Str) (u : Str) : Option Str :=
  match img u with
  | some p => if p = [] then none else some p
  | none => none

/-- Embedding of `DownloadManager._download_one_image`
(`src/core/download_manager.py`): iterate the group's URL list, each URL
tried once, returning the first truthy temp path; an empty group
returns `None`. -/
def download_one_image (img : Str → Option Str) (url_list : List Str) :
    Option Str × List Str :=
  tryUrls (imgAttempt img) url_list

/-- Embedding of `normal_video.download_video_to_cache`
(`src/core/downloader/handler/normal_video.py`): fails on an empty cache
dir, otherwise streams via `download_media_from_url` (modelled by the
per-URL oracle `stream`, as `handler/base.py` is not under `src/`) and
returns the result dict only when the file path is truthy. -/
def normal_video_dl (stream : Str → Option (Str × Option Rat)) (cache_dir : Str)
    (u : Str) : Option (Str × Option Rat) :=
  if cache_dir = [] then none
  else
    match stream u with
    | some ps => if ps.1 ≠ [] then some ps else none
    | none => none

/-- Embedding of the per-item loop of `batch_download_videos`
(`src/core/downloader/handler/normal_video.py`): try each URL of the
group in order with the plain streamer, succeed on the first result
carrying a truthy file path. -/
def download_one_video (stream : Str → Option (Str × Option Rat)) (cache_dir : Str)
    (url_list : List Str) : Option (Str × Option Rat) × List Str :=
  tryUrls (normal_video_dl stream cache_dir) url_list

/-- Concrete image oracle for the C5 witness: `u1` fails, `u2` succeeds. -/
def imgOracleW : Str → Option Str :=
  fun u => if u = "u2".data then some "/tmp/i".data else none

/-- Concrete streamer oracle for the C5 witness: `v1` fails, `v2`
succeeds. -/
def streamOracleW : Str → Option (Str × Option Rat) :=
  fun u => if u = "v2".data then some ("/cache/v".data, some 3) else none

/-! ## Range-parallel video downloader (`handler/range_video.py`) -/

/-- Constant `Config.RANGE_DOWNLOAD_CHUNK_SIZE` (`src/core/constants.py`). -/
def RANGE_DOWNLOAD_CHUNK_SIZE : Nat := 2 * 1024 * 1024

/-- Network environment of one range download: the size probe result
(`_get_file_size`, exceptions folded into `none`), the per-range chunk
fetch (`_download_range`, failures and non-2xx folded into `none`), the
plain streamer used by the fallback, and whether the assembly write
succeeds. -/
structure RangeEnv where
  fileSize : Option Nat
  chunk : Nat → Nat → Option (List Nat)
  stream : Str → Option (Str × Option Rat)
  writeOk : Bool

/-- Range request issued for chunk `i`: `bytes=start-end` with
`start = i*chunk_size`, `end = min(start+chunk_size-1, file_size-1)`. -/
def chunkCall (e : RangeEnv) (chunk_size fsz i : Nat) : Option (List Nat) :=
  e.chunk (i * chunk_size) (min (i * chunk_size + chunk_size - 1) (fsz - 1))

/-- Files a download result leaves on disk: the output file on success. -/
def dlFiles (r : Option (Str × Option Rat)) : List Str :=
  match r with
  | some pr => [pr.1]
  | none => []

/-- Embedding of `range_video.download_video_to_cache`
(`src/core/downloader/handler/range_video.py`).  `file_path` stands for
`generate_cache_file_path(...)` (`downloader/utils.py` is not under
`src/`).  Returns the result, the list of chunk indices requested (each
chunk is requested exactly once; there are no per-chunk retries), and
the files this call leaves on disk.  The missing-chunk test inside the
assembly loop is unreachable once no chunk failed (the indexed map then
holds every index), and on an assembly error the partial output file is
`os.remove`d before falling back, so the fallback branches leave only
the fallback's own output. -/
def range_download_video (e : RangeEnv) (url cache_dir file_path : Str)
    (chunk_size : Nat) : Option (Str × Option Rat) × List Nat × List Str :=
  if cache_dir = [] then (none, [], [])
  else
    match e.fileSize with
    | none =>
      let fb := normal_video_dl e.stream cache_dir url
      (fb, [], dlFiles fb)
    | some fsz =>
      let num_chunks := (fsz + chunk_size - 1) / chunk_size
      if num_chunks ≤ 1 then
        let fb := normal_video_dl e.stream cache_dir url
        (fb, [], dlFiles fb)
      else
        let idxs := List.range num_chunks
        let results := idxs.map (chunkCall e chunk_size fsz)
        if results.any (fun d => d = none) then
          let fb := normal_video_dl e.stream cache_dir url
          (fb, idxs, dlFiles fb)
        else if e.writeOk then
          let bytes := results.foldr (fun d acc => d.getD [] ++ acc) []
          (some (file_path, some ((bytes.length : Rat) / 1048576)), idxs, [file_path])
        else
          let fb := normal_video_dl e.stream cache_dir url
          (fb, idxs, dlFiles fb)

/-- Concrete range environment for the C4 witness: a 5 MiB file whose
second chunk request fails; the plain streamer succeeds. -/
def rangeEnvW : RangeEnv where
  fileSize := some 5242880
  chunk := fun s _ => if s = 2097152 then none else some []
  stream := fun _ => some ("/cache/n.mp4".data, some 5)
  writeOk := true

/-! ## Download manager (`src/core/download_manager.py`)

`process_metadata` mutates the parsed metadata dict; the dict is
modelled as a structure whose output keys are `Option`-typed (`none`
means the key was never assigned).  Network I/O is a deterministic
per-URL oracle structure; bounded-concurrency `gather` calls preserve
list order, so they are transcribed as `map`.  The second component of
the result is the trace of URLs handed to a cache download — it is `[]`
exactly when no media bytes were fetched towards the cache. -/

/-- Deterministic network oracles used by `process_metadata`:
`videoSize` is `get_video_size` (size in MB and HTTP status; exceptions
folded into `(none, none)` by the wrapping task), `validateImage` is
`validate_media_url`, `imageDL` is `download_image_to_file`, `cacheDL`
is the per-URL cache download performed by `pre_download_media` (those
four helpers live in `core/downloader` modules not under `src/` and are
modelled from the spec as per-URL oracles). -/
structure NetEnv where
  videoSize : Str → Option Rat × Option Nat
  validateImage : Str → Bool × Option Nat
  imageDL : Str → Option Str
  cacheDL : Str → Option (Str × Option Rat)

/-- `DownloadManager` state after `__init__` (threshold already
clamped). -/
structure DMConfig where
  max_video_size_mb : Rat
  large_video_threshold_mb : Rat
  pre_download_all_media : Bool
  cache_dir_available : Bool

/-- Parsed metadata record with the keys `process_metadata` reads and
writes; an output field holding `none` models an absent dict key. -/
structure Meta where
  url : Str := []
  video_urls : List (List Str) := []
  image_urls : List (List Str) := []
  page_url : Option Str := none
  has_valid_media : Option Bool := none
  video_count : Option Nat := none
  image_count : Option Nat := none
  failed_video_count : Option Nat := none
  failed_image_count : Option Nat := none
  file_paths : Option (List (Option Str)) := none
  video_sizes : Option (List (Option Rat)) := none
  max_video_size_out : Option (Option Rat) := none
  total_video_size_mb : Option Rat := none
  exceeds_max_size : Option Bool := none
  use_local_files : Option Bool := none
  is_large_media : Option Bool := none
  has_access_denied : Option Bool := none
deriving DecidableEq, Repr

/-- Result dict of one media item produced by `pre_download_media`. -/
structure DLResult where
  success : Bool
  file_path : Option Str
  size_mb : Option Rat
deriving DecidableEq, Repr

/-- Python truthiness of an optional path (`None` and `''` are falsy). -/
def truthyPath : Option Str → Bool
  | some p => !p.isEmpty
  | none => false

/-- Size probe of one URL group (`get_video_size_task`): the first URL
is probed; an empty group yields `(None, None)`. -/
def probeGroup (e : NetEnv) (g : List Str) : Option Rat × Option Nat :=
  match g with
  | [] => (none, none)
  | u :: _ => e.videoSize u

/-- Probed sizes of all video groups, in group order. -/
def groupSizes (e : NetEnv) (video_urls : List (List Str)) : List (Option Rat) :=
  video_urls.map (fun g => (probeGroup e g).1)

/-- `valid_sizes = [s for s in video_sizes if s is not None]`. -/
def validSizes (l : List (Option Rat)) : List Rat := l.filterMap id

/-- Python `max` on a nonempty list (0 on `[]`, which is never taken). -/
def maxRat : List Rat → Rat
  | [] => 0
  | x :: xs => xs.foldl max x

/-- Did any video group's probe report HTTP 403? -/
def videoAccessDenied (e : NetEnv) (video_urls : List (List Str)) : Bool :=
  video_urls.any (fun g => (probeGroup e g).2 == some 403)

/-- Validation of one image group (`validate_image_task`): the first URL
is validated; an empty group yields `(False, None)`. -/
def validateGroup (e : NetEnv) (g : List Str) : Bool × Option Nat :=
  match g with
  | [] => (false, none)
  | u :: _ => e.validateImage u

/-- `has_valid_images`: any group whose first URL validates. -/
def hasValidImages (e : NetEnv) (image_urls : List (List Str)) : Bool :=
  image_urls.any (fun g => (validateGroup e g).1)

/-- Image-side `has_access_denied`: a group whose first URL fails
validation with status 403. -/
def imageAccessDenied (e : NetEnv) (image_urls : List (List Str)) : Bool :=
  image_urls.any (fun g => !(validateGroup e g).1 && ((validateGroup e g).2 == some 403))

/-- Embedding of `DownloadManager._download_images`: when there are
image groups and validation found a valid one, each group is fetched to
a temp file with per-group URL fallback (`_download_one_image`); a
non-truthy result stores `None` and counts as failed.  Otherwise no
download happens and, if groups exist, all count as failed. -/
def download_images (e : NetEnv) (image_urls : List (List Str))
    (has_valid_images : Bool) : List (Option Str) × Nat :=
  if image_urls ≠ [] ∧ has_valid_images then
    let raw := image_urls.map (fun g => (download_one_image e.imageDL g).1)
    let paths := raw.map (fun p => if truthyPath p then p else none)
    (paths, paths.countP (fun p => p.isNone))
  else
    ([], if image_urls ≠ [] then image_urls.length else 0)

/-- Embedding of `DownloadManager._build_media_items`: one item per
nonempty URL group, videos first. -/
def build_media_items (video_urls image_urls : List (List Str)) : List (List Str) :=
  video_urls.filter (fun g => g ≠ []) ++ image_urls.filter (fun g => g ≠ [])

/-- Modelled from the spec: `pre_download_media` (exported by
`core/downloader/__init__`, not under `src/`) downloads one media item
per URL group with per-group fallback — §4.2: every handler tries the
group's URLs in order and returns on the first success — yielding one
result per item in item order.  Also returns the trace of URLs handed
to the cache downloader. -/
def pre_download_media (e : NetEnv) (items : List (List Str)) :
    List DLResult × List Str :=
  items.foldr
    (fun g acc =>
      let r := tryUrls e.cacheDL g
      ({ success := r.1.isSome, file_path := r.1.map Prod.fst,
         size_mb := r.1.bind Prod.snd } :: acc.1, r.2 ++ acc.2))
    ([], [])

/-- Embedding of the positional walk inside
`DownloadManager._process_download_results`: one slot per group, a
result consumed per slot while results last; missing or non-successful
results store `None` and count as failed.  Returns the slots, the
failure count and the unconsumed results. -/
def procResults : List (List Str) → List DLResult →
    List (Option Str) × Nat × List DLResult
  | [], rs => ([], 0, rs)
  | _ :: gs, [] =>
    let t := procResults gs []
    (none :: t.1, t.2.1 + 1, t.2.2)
  | _ :: gs, r :: rs =>
    let t := procResults gs rs
    if r.success && truthyPath r.file_path then (r.file_path :: t.1, t.2.1, t.2.2)
    else (none :: t.1, t.2.1 + 1, t.2.2)

/-- Embedding of `DownloadManager._process_download_results`. -/
def processDownloadResults (video_urls image_urls : List (List Str))
    (results : List DLResult) : List (Option Str) × Nat × Nat :=
  let v := procResults video_urls results
  let i := procResults image_urls v.2.2
  (v.1 ++ i.1, v.2.1, i.2.1)

/-- Video sizes recomputed in the pre-download branch (lines 380-396):
actual downloaded size when available, else the pre-check probe value
when that list is truthy and long enough, else `None`. -/
def combineSizesPre (pre : Option (List (Option Rat))) :
    List DLResult → Nat → List (Option Rat)
  | [], _ => []
  | r :: rs, idx =>
    (if r.success && r.size_mb.isSome then r.size_mb
     else
       match pre with
       | some l => if l ≠ [] ∧ idx < l.length then l.getD idx none else none
       | none => none) :: combineSizesPre pre rs (idx + 1)

/-- Video sizes recomputed in the large-media branch (lines 586-593):
actual downloaded size when available, else the probe value at the same
index. -/
def combineSizesProbe (video_sizes : List (Option Rat)) :
    List DLResult → Nat → List (Option Rat)
  | [], _ => []
  | r :: rs, idx =>
    (if r.success && r.size_mb.isSome then r.size_mb
     else if idx < video_sizes.length then video_sizes.getD idx none
     else none) :: combineSizesProbe video_sizes rs (idx + 1)

/-- Per-result video file paths of the large-media branch (lines
562-569). -/
def resultsToPaths : List DLResult → List (Option Str) × Nat
  | [] => ([], 0)
  | r :: rs =>
    let t := resultsToPaths rs
    if r.success && truthyPath r.file_path then (r.file_path :: t.1, t.2)
    else (none :: t.1, t.2 + 1)

/-- Common tail of the pre-download branch (lines 415-427). -/
def preFinish (m2 : Meta) (dl : List DLResult × List Str) (vc ic : Nat) :
    Meta × List Str :=
  let hvm := dl.1.any (fun r => r.success && truthyPath r.file_path)
  ({ m2 with
      has_valid_media := some hvm, use_local_files := some hvm,
      video_count := some vc, image_count := some ic,
      exceeds_max_size := some false, is_large_media := some false }, dl.2)

/-- Embedding of the `pre_download_all_media` branch of
`process_metadata` (lines 355-427).  `cleanup_files` on the ceiling
re-check deletes the downloaded files; the trace keeps the URLs that
were fetched. -/
def preDownloadBranch (c : DMConfig) (e : NetEnv) (m : Meta)
    (pre_check : Option (List (Option Rat))) : Meta × List Str :=
  let video_urls := m.video_urls
  let image_urls := m.image_urls
  let vc := video_urls.length
  let ic := image_urls.length
  let dl := pre_download_media e (build_media_items video_urls image_urls)
  let pr := processDownloadResults video_urls image_urls dl.1
  let m1 := { m with
      file_paths := some pr.1,
              failed_video_count := some pr.2.1, failed_image_count := some pr.2.2 }
  if video_urls ≠ [] then
    let vsizes := combineSizesPre pre_check (dl.1.take vc) 0
    let valid := validSizes vsizes
    let m2 := { m1 with
        video_sizes := some vsizes,
                max_video_size_out := some (if valid ≠ [] then some (maxRat valid) else none),
                total_video_size_mb := some (if valid ≠ [] then valid.sum else 0) }
    if 0 < c.max_video_size_mb ∧ valid ≠ [] ∧ c.max_video_size_mb < maxRat valid then
      ({ m2 with
          exceeds_max_size := some true, has_valid_media := some false,
          use_local_files := some false, file_paths := some [] }, dl.2)
    else preFinish m2 dl vc ic
  else
    preFinish { m1 with
        video_sizes := some [], max_video_size_out := some none,
                total_video_size_mb := some 0 } dl vc ic

/-- Common tail of the large-media branch (lines 619-630); only
`use_local_files` is recomputed there, `has_valid_media` keeps the value
set at line 505. -/
def largeFinish (m4 : Meta) (dl : List DLResult × List Str)
    (di : List (Option Str) × Nat) (file_paths : List (Option Str)) (fvc : Nat) :
    Meta × List Str :=
  let hv := dl.1.any (fun r => r.success && truthyPath r.file_path)
  let hi := di.1.any truthyPath
  ({ m4 with
      file_paths := some file_paths, use_local_files := some (hv || hi),
      is_large_media := some true, failed_video_count := some fvc,
      failed_image_count := some di.2 }, dl.2)

/-- Embedding of the large-media branch of `process_metadata` (lines
537-630): videos to cache (nonempty groups only, padded back to one
slot per group), images to temp files, then a ceiling re-check with the
downloaded sizes that deletes everything on violation. -/
def largeBranch (c : DMConfig) (e : NetEnv) (m3 : Meta)
    (vsizes2 : List (Option Rat)) (has_valid_images : Bool) : Meta × List Str :=
  let video_urls := m3.video_urls
  let image_urls := m3.image_urls
  let vc := video_urls.length
  let ic := image_urls.length
  let dl := pre_download_media e (video_urls.filter (fun g => g ≠ []))
  let rp := resultsToPaths dl.1
  let vpaths := rp.1 ++ List.replicate (vc - rp.1.length) none
  let fvc := rp.2 + (vc - rp.1.length)
  let di := download_images e image_urls has_valid_images
  let file_paths := vpaths ++ di.1
  if video_urls ≠ [] ∧ 0 < c.max_video_size_mb then
    let dsizes := combineSizesProbe vsizes2 (dl.1.take vc) 0
    let dvalid := validSizes dsizes
    if dvalid ≠ [] ∧ c.max_video_size_mb < maxRat dvalid then
      ({ m3 with
          exceeds_max_size := some true, has_valid_media := some false,
          use_local_files := some false, file_paths := some [],
          is_large_media := some false, video_sizes := some dsizes,
          max_video_size_out := some (some (maxRat dvalid)),
          failed_video_count := some vc, failed_image_count := some ic }, dl.2)
    else
      let m4 := if dvalid ≠ [] then
          { m3 with
              video_sizes := some dsizes,
              max_video_size_out := some (some (maxRat dvalid)),
              total_video_size_mb := some dvalid.sum }
        else m3
      largeFinish m4 dl di file_paths fvc
  else largeFinish m3 dl di file_paths fvc

/-- Embedding of the small-media branch of `process_metadata` (lines
631-656): only images are downloaded (to temp files); the videos stay
direct URLs and get no `file_paths` slots. -/
def smallBranch (e : NetEnv) (m3 : Meta) (vsizes2 : List (Option Rat))
    (has_valid_images has_valid_videos : Bool) : Meta × List Str :=
  let di := download_images e m3.image_urls has_valid_images
  let hs := di.1.any truthyPath
  let fvc := if vsizes2 ≠ [] then vsizes2.countP (fun s => s.isNone) else 0
  ({ m3 with
      file_paths := some di.1, use_local_files := some hs,
      is_large_media := some false, failed_video_count := some fvc,
      failed_image_count := some di.2,
      has_valid_media := some (has_valid_videos || hs) }, [])

/-- Embedding of `process_metadata` after the pre-check and
pre-download sections (lines 429-658): the second size probe, image
validation, the no-valid-media return, the (re-)ceiling check, and the
dispatch to the large- or small-media branch. -/
def mainFlow (c : DMConfig) (e : NetEnv) (m : Meta) : Meta × List Str :=
  let video_urls := m.video_urls
  let image_urls := m.image_urls
  let vc := video_urls.length
  let ic := image_urls.length
  let vsizes2 := groupSizes e video_urls
  let valid2 := validSizes vsizes2
  let mx2 : Option Rat := if valid2 ≠ [] then some (maxRat valid2) else none
  let m1 := { m with
      video_sizes := some vsizes2, max_video_size_out := some mx2,
              total_video_size_mb := some (if valid2 ≠ [] then valid2.sum else 0),
              video_count := some vc, image_count := some ic }
  let has_valid_videos := !valid2.isEmpty
  let hvi := hasValidImages e image_urls
  let hvm := has_valid_videos || hvi
  let m2 := { m1 with
      has_valid_media := some hvm,
              has_access_denied :=
                some (imageAccessDenied e image_urls || videoAccessDenied e video_urls) }
  if hvm = false then
    ({ m2 with
        exceeds_max_size := some false, file_paths := some [],
        use_local_files := some false, is_large_media := some false,
        failed_video_count := some vc, failed_image_count := some ic }, [])
  else if 0 < c.max_video_size_mb ∧ valid2 ≠ [] ∧ c.max_video_size_mb < maxRat valid2 then
    ({ m2 with
        exceeds_max_size := some true, has_valid_media := some false,
        failed_video_count := some vc, failed_image_count := some ic }, [])
  else
    let m3 := { m2 with exceeds_max_size := some false }
    if (0 < c.large_video_threshold_mb ∧ valid2 ≠ [] ∧
        c.large_video_threshold_mb < maxRat valid2) ∧ c.cache_dir_available then
      largeBranch c e m3 vsizes2 hvi
    else
      smallBranch e m3 vsizes2 hvi has_valid_videos

/-- Embedding of `DownloadManager.process_metadata`
(`src/core/download_manager.py`, lines 264-658).  The second component
is the trace of URLs handed to a cache download (empty means no media
bytes were fetched towards the cache). -/
def process_metadata (c : DMConfig) (e : NetEnv) (m : Meta) : Meta × List Str :=
  if m.video_urls = [] ∧ m.image_urls = [] then
    ({ m with
        has_valid_media := some false, video_count := some 0,
        image_count := some 0, failed_video_count := some 0,
        failed_image_count := some 0, file_paths := some [] }, [])
  else
    let probe := groupSizes e m.video_urls
    if m.video_urls ≠ [] ∧ 0 < c.max_video_size_mb ∧ validSizes probe ≠ [] ∧
        c.max_video_size_mb < maxRat (validSizes probe) then
      ({ m with
          exceeds_max_size := some true, has_valid_media := some false,
          video_sizes := some probe,
          max_video_size_out := some (some (maxRat (validSizes probe))),
          total_video_size_mb := some (validSizes probe).sum,
          video_count := some m.video_urls.length,
          image_count := some m.image_urls.length,
          failed_video_count := some m.video_urls.length,
          failed_image_count := some m.image_urls.length,
          file_paths := some [], use_local_files := some false,
          is_large_media := some false }, [])
    else
      let pre_check : Option (List (Option Rat)) :=
        if m.video_urls ≠ [] ∧ 0 < c.max_video_size_mb then some probe else none
      if c.pre_download_all_media ∧ c.cache_dir_available then
        preDownloadBranch c e m pre_check
      else
        mainFlow c e m

/-! ## Concrete scenarios -/

/-- Scenario config: no hard ceiling, no soft threshold, pre-download
off, cache available (spec S1). -/
def cfgS1 : DMConfig :=
  { max_video_size_mb := 0, large_video_threshold_mb := 0,
    pre_download_all_media := false, cache_dir_available := true }

/-- Scenario environment for S1: a 5 MB video, all images valid, image
downloads succeed to `/t/<url>`. -/
def envS1 : NetEnv :=
  { videoSize := fun _ => (some 5, some 200),
    validateImage := fun _ => (true, some 200),
    imageDL := fun u => some ('/' :: 't' :: '/' :: u),
    cacheDL := fun _ => none }

/-- Scenario record for S1: one video group, three image groups. -/
def metaS1 : Meta :=
  { url := "https://x/9/p".data,
    video_urls := [["v1".data]],
    image_urls := [["i1".data], ["i2".data], ["i3".data]] }

/-- Scenario config for S3: hard ceiling 20 MB. -/
def cfgC2 : DMConfig :=
  { max_video_size_mb := 20, large_video_threshold_mb := 0,
    pre_download_all_media := false, cache_dir_available := true }

/-- Scenario environment for S3: the probe reports 50 MB. -/
def envC2 : NetEnv :=
  { videoSize := fun _ => (some 50, some 200),
    validateImage := fun _ => (false, none),
    imageDL := fun _ => none,
    cacheDL := fun u => some ('/' :: 'c' :: '/' :: u, some 50) }

/-- Scenario record for S3: one video group. -/
def metaC2 : Meta := { url := "u".data, video_urls := [["v".data]] }

/-- Scenario environment for S5: the first URL of the first image group
answers 403, its second URL and the second group succeed. -/
def envC6 : NetEnv :=
  { videoSize := fun _ => (none, none),
    validateImage := fun u =>
      if u = "i1".data then (false, some 403) else (true, some 200),
    imageDL := fun u => if u = "i1".data then none else some ('/' :: 't' :: '/' :: u),
    cacheDL := fun _ => none }

/-- Scenario record for S5: image group `[i1 (403), i2 (ok)]` plus a
valid group `[i3]`. -/
def metaC6 : Meta :=
  { url := "u".data, image_urls := [["i1".data, "i2".data], ["i3".data]] }

/-! ## Outgoing video emission (spec-modelled, for the force-download
policy) -/

/-- How one video of a processed record appears in the outgoing
message. -/
inductive VideoEmission | localFile (p : Str) | directUrl (u : Str) | omitted
deriving DecidableEq, Repr

/-- Modelled from the spec: the node builder
(`core/message_adapter/node_builder.py`, imported by
`message_adapter/manager.py` but not under `src/`) decides how a video
of a processed record is emitted.  Spec I2 and the `base.py` contract
for `video_force_download`: a local file is used when the download
produced one; otherwise, if the force flag is set (pre-download
disabled or failed, so no local file exists), the video is omitted and
never emitted as a direct URL; without the flag the direct URL is
used. -/
def emit_video (force_download : Bool) (local_file : Option Str)
    (primary_url : Str) : VideoEmission :=
  match local_file with
  | some p => .localFile p
  | none => if force_download then .omitted else .directUrl primary_url

/-! ## Theorems -/

theorem charLower_idem (c : Char) : charLower (charLower c) = charLower c := by
  unfold charLower
  by_cases h : 65 ≤ c.toNat ∧ c.toNat ≤ 90
  · rw [if_pos h]
    obtain ⟨h1, h2⟩ := h
    interval_cases h : c.toNat <;> simp_all
  · rw [if_neg h, if_neg h]

theorem sLower_idem (s : Str) : sLower (sLower s) = sLower s := by
  unfold sLower
  rw [List.map_map]
  exact List.map_congr_left (fun c _ => charLower_idem c)

/-- C7 counterexample: the URLs `http://a/pic` and `http://a/pic?x=.jpg`
have the same lowercased query-and-fragment-stripped path but
`detect_media_type` classifies them differently, because the extension
tests scan the full lowercased URL including the query. -/
theorem detect_media_type_not_path_only :
    takeBefore '#' (takeBefore '?' (sLower "http://a/pic".data)) =
      takeBefore '#' (takeBefore '?' (sLower "http://a/pic?x=.jpg".data)) ∧
    detect_media_type "http://a/pic".data = MediaType.video ∧
    detect_media_type "http://a/pic?x=.jpg".data = MediaType.image := by
  refine ⟨by decide, by decide, by decide⟩

/-- C7 amended: `detect_media_type` is deterministic and depends only on
the lowercased form of the full URL (query and fragment included):
lowercasing the input first does not change the result. -/
theorem detect_media_type_lower_invariant (u : Str) :
    detect_media_type (sLower u) = detect_media_type u := by
  cases u with
  | nil => rfl
  | cons c cs =>
    have h1 : ¬(sLower (c :: cs) = []) := by simp [sLower]
    have h2 : ¬(c :: cs = ([] : Str)) := by simp
    unfold detect_media_type
    rw [sLower_idem, if_neg h1, if_neg h2]

theorem cleanup_all_cleaned (fail : Str → Bool) (rm : RM) (fs : FS) :
    (RM.cleanup_all fail rm fs).1.cleaned = true := by
  by_cases h : rm.cleaned
  · simp [RM.cleanup_all, h]
  · simp [RM.cleanup_all, h, RM.cleanup_temp_files, RM.cleanup_cache_files]

/-- C9: `ResourceManager` cleanup is idempotent: after `cleanup_all` has
run once, a second call unlinks no file (the file system is unchanged),
returns 0, and `get_stats` afterwards reports the same statistics as
after the first call. -/
theorem cleanup_all_idempotent (fail : Str → Bool) (rm : RM) (fs : FS) :
    (RM.cleanup_all fail (RM.cleanup_all fail rm fs).1 (RM.cleanup_all fail rm fs).2.1).2.2 = 0 ∧
    (RM.cleanup_all fail (RM.cleanup_all fail rm fs).1 (RM.cleanup_all fail rm fs).2.1).2.1 =
      (RM.cleanup_all fail rm fs).2.1 ∧
    (RM.cleanup_all fail (RM.cleanup_all fail rm fs).1 (RM.cleanup_all fail rm fs).2.1).1.get_stats =
      (RM.cleanup_all fail rm fs).1.get_stats := by
  have h := cleanup_all_cleaned fail rm fs
  constructor
  · show (RM.cleanup_all fail _ _).2.2 = 0
    rw [RM.cleanup_all, if_pos h]
  constructor
  · show (RM.cleanup_all fail _ _).2.1 = _
    rw [RM.cleanup_all, if_pos h]
  · show (RM.cleanup_all fail _ _).1.get_stats = _
    rw [RM.cleanup_all, if_pos h]

/-- C10: constructing `ConfigManager` with validation enabled raises
`ConfigurationError` whenever `twitter_proxy_url` is a nonempty string
not starting with `http://`, `https://` or `socks5://`, whatever the
proxy flags are: the scheme check in `_validate_config` is not
conditioned on a proxy flag. -/
theorem validate_config_proxy_scheme (c : PluginConfig)
    (hne : c.twitter_proxy_url.getD [] ≠ [])
    (hs : ¬(startsWithL "http://".data (c.twitter_proxy_url.getD []) ∨
        startsWithL "https://".data (c.twitter_proxy_url.getD []) ∨
        startsWithL "socks5://".data (c.twitter_proxy_url.getD []))) :
    ∃ e, validate_config c = Except.error e := by
  cases hval : validate_config c with
  | error e => exact ⟨e, rfl⟩
  | ok u =>
    exfalso
    unfold validate_config at hval
    simp only [] at hval
    split at hval
    · cases hval
    · split at hval
      · cases hval
      · split at hval
        · cases hval
        · split at hval
          · cases hval
          · split at hval
            · cases hval
            · rename_i hcond
              exact hcond ⟨hne, hs⟩

theorem leBytes_length (k n : Nat) : (leBytes k n).length = k := by
  induction k generalizing n with
  | zero => rfl
  | succ k ih => simp [leBytes, ih]

theorem md5Digest_length (msg : List Nat) : (md5Digest msg).length = 16 := by
  simp [md5Digest, leBytes_length]

theorem md5hex_length (msg : List Nat) : (md5hex msg).length = 32 := by
  have hfold : ∀ l : List Nat,
      (l.foldr (fun b acc => hexChar (b / 16) :: hexChar (b % 16) :: acc) ([] : Str)).length =
        2 * l.length := by
    intro l
    induction l with
    | nil => rfl
    | cons x xs ih => simp [ih]; ring
  rw [md5hex, hfold, md5Digest_length]

theorem all_takeWhile (p : Char → Bool) (l : Str) : (l.takeWhile p).all p := by
  induction l with
  | nil => rfl
  | cons x xs ih =>
    by_cases h : p x <;> simp [List.takeWhile_cons, h, ih]

theorem findSlashDigits_spec (s d : Str) (h : findSlashDigits s = some d) :
    d ≠ [] ∧ d.all Char.isDigit := by
  induction s with
  | nil => cases h
  | cons c rest ih =>
    rw [findSlashDigits] at h
    split at h
    · rename_i hc
      rw [Bool.and_eq_true] at hc
      cases rest with
      | nil => simp [headIsDigit] at hc
      | cons r rs =>
        have hr : r.isDigit := by simp [headIsDigit] at hc; exact hc.2
        have hdd : d = r :: rs.takeWhile Char.isDigit := by
          rw [List.takeWhile_cons, if_pos hr] at h
          exact (Option.some_inj.mp h).symm
        subst hdd
        exact ⟨by simp, by simp [hr, all_takeWhile Char.isDigit rs]⟩
    · exact ih h

set_option maxRecDepth 100000 in
/-- C8 counterexample: for `https://example.com/12345` the URL path is
`/12345`, which contains the numeric id `12345`, yet `_generate_media_id`
returns the MD5 prefix `d5a580f4`: `strip('/')` removes the leading
slash, so `re.search(r'/(\d+)')` cannot match a numeric id in the first
path segment. -/
theorem generate_media_id_first_segment :
    pyUrlPath "https://example.com/12345".data = "/12345".data ∧
    generate_media_id "https://example.com/12345".data = "d5a580f4".data ∧
    generate_media_id "https://example.com/12345".data ≠ "12345".data := by
  refine ⟨by decide, by decide, by decide⟩

/-- C8 amended: `_generate_media_id` returns the first digit run that is
preceded by `/` inside the slash-stripped URL path when one exists (so a
numeric id in the first path segment is not used), and otherwise the
first 8 hex characters of the URL's MD5; the id is a pure function of
the URL, hence stable. -/
theorem generate_media_id_spec (url : Str) :
    (∀ d, findSlashDigits (stripSlashes (pyUrlPath url)) = some d →
      generate_media_id url = d ∧ d ≠ [] ∧ d.all Char.isDigit = true) ∧
    (findSlashDigits (stripSlashes (pyUrlPath url)) = none →
      generate_media_id url = (md5hex (url.map Char.toNat)).take 8 ∧
      (generate_media_id url).length = 8) := by
  constructor
  · intro d h
    refine ⟨by simp [generate_media_id, h], (findSlashDigits_spec _ _ h).1,
      (findSlashDigits_spec _ _ h).2⟩
  · intro h
    have hg : generate_media_id url = (md5hex (url.map Char.toNat)).take 8 := by
      simp [generate_media_id, h]
    exact ⟨hg, by simp [hg, List.length_take, md5hex_length]⟩

theorem generate_media_id_spec_witness :
    generate_media_id "https://a/v/77".data = "77".data ∧ ("77".data ≠ ([] : Str)) := by
  have h := (generate_media_id_spec "https://a/v/77".data).1 "77".data (by decide)
  exact ⟨h.1, h.2.1⟩

theorem validate_config_proxy_scheme_witness :
    cfgProxyBad.twitter_use_image_proxy = false ∧
    cfgProxyBad.twitter_use_video_proxy = false ∧
    ∃ e, validate_config cfgProxyBad = Except.error e :=
  ⟨rfl, rfl, validate_config_proxy_scheme cfgProxyBad (by decide) (by decide)⟩

theorem tryUrls_first_success {α : Type} (f : Str → Option α) (g1 : List Str)
    (u : Str) (g2 : List Str) (r : α) (hfail : ∀ v ∈ g1, f v = none)
    (hsucc : f u = some r) :
    tryUrls f (g1 ++ u :: g2) = (some r, g1 ++ [u]) := by
  induction g1 with
  | nil => simp [tryUrls, hsucc]
  | cons v vs ih =>
    have hv : f v = none := hfail v (by simp)
    have ih2 := ih (fun w hw => hfail w (by simp [hw]))
    simp [tryUrls, hv, ih2]

theorem tryUrls_all_fail {α : Type} (f : Str → Option α) (g : List Str)
    (hfail : ∀ v ∈ g, f v = none) :
    tryUrls f g = (none, g) := by
  induction g with
  | nil => rfl
  | cons v vs ih =>
    have hv : f v = none := hfail v (by simp)
    have ih2 := ih (fun w hw => hfail w (by simp [hw]))
    simp [tryUrls, hv, ih2]

/-- C5: both downloading handlers (`_download_one_image` and the
per-item loop of `batch_download_videos`) try a group's URLs in list
order, attempt a URL only after all earlier ones failed, return with the
first URL that succeeds, and fail only when every URL of the group
failed. -/
theorem handler_group_fallback
    (img : Str → Option Str) (stream : Str → Option (Str × Option Rat))
    (cache_dir : Str)
    (g1 : List Str) (u : Str) (g2 : List Str) (p : Str)
    (h1 : ∀ v ∈ g1, imgAttempt img v = none) (h2 : imgAttempt img u = some p)
    (g1v : List Str) (uv : Str) (g2v : List Str) (pv : Str × Option Rat)
    (h3 : ∀ v ∈ g1v, normal_video_dl stream cache_dir v = none)
    (h4 : normal_video_dl stream cache_dir uv = some pv) :
    download_one_image img (g1 ++ u :: g2) = (some p, g1 ++ [u]) ∧
    download_one_video stream cache_dir (g1v ++ uv :: g2v) = (some pv, g1v ++ [uv]) ∧
    (∀ g, (∀ v ∈ g, imgAttempt img v = none) → download_one_image img g = (none, g)) ∧
    (∀ g, (∀ v ∈ g, normal_video_dl stream cache_dir v = none) →
      download_one_video stream cache_dir g = (none, g)) :=
  ⟨tryUrls_first_success _ g1 u g2 p h1 h2,
   tryUrls_first_success _ g1v uv g2v pv h3 h4,
   fun g hg => tryUrls_all_fail _ g hg,
   fun g hg => tryUrls_all_fail _ g hg⟩

theorem handler_group_fallback_witness :
    download_one_image imgOracleW ["u1".data, "u2".data, "u3".data] =
      (some "/tmp/i".data, ["u1".data, "u2".data]) ∧
    download_one_video streamOracleW "/cache".data ["v1".data, "v2".data] =
      (some ("/cache/v".data, some 3), ["v1".data, "v2".data]) := by
  have h := handler_group_fallback imgOracleW streamOracleW "/cache".data
    ["u1".data] "u2".data ["u3".data] "/tmp/i".data
    (by decide) (by decide)
    ["v1".data] "v2".data [] ("/cache/v".data, some 3)
    (by decide) (by decide)
  exact ⟨h.1, h.2.1⟩

/-- C4: if a range-parallel video download has a known size and more
than one chunk, and at least one chunk request fails (or the assembly
write fails), then the downloader returns exactly the plain streamer's
result for the same URL, each chunk was requested exactly once (no
per-chunk retries), and no truncated output file is left on disk: only
the fallback's own complete output remains. -/
theorem range_download_fallback (e : RangeEnv) (url cache_dir file_path : Str)
    (chunk_size fsz : Nat)
    (hcd : cache_dir ≠ []) (hsz : e.fileSize = some fsz)
    (hnc : 1 < (fsz + chunk_size - 1) / chunk_size)
    (hfail : (∃ i ∈ List.range ((fsz + chunk_size - 1) / chunk_size),
        chunkCall e chunk_size fsz i = none) ∨ e.writeOk = false) :
    range_download_video e url cache_dir file_path chunk_size =
      (normal_video_dl e.stream cache_dir url,
       List.range ((fsz + chunk_size - 1) / chunk_size),
       dlFiles (normal_video_dl e.stream cache_dir url)) := by
  rw [range_download_video, if_neg hcd, hsz]
  simp only []
  rw [if_neg (Nat.not_le.mpr hnc)]
  rcases hfail with ⟨i, hi, hci⟩ | hw
  · have hany : ((List.range ((fsz + chunk_size - 1) / chunk_size)).map
        (chunkCall e chunk_size fsz)).any (fun d => d = none) = true := by
      rw [List.any_eq_true]
      exact ⟨chunkCall e chunk_size fsz i, List.mem_map_of_mem _ hi, by simp [hci]⟩
    rw [if_pos hany]
  · by_cases hany : ((List.range ((fsz + chunk_size - 1) / chunk_size)).map
        (chunkCall e chunk_size fsz)).any (fun d => d = none) = true
    · rw [if_pos hany]
    · rw [if_neg hany, hw]
      simp only [Bool.false_eq_true, if_false]

theorem range_download_fallback_witness :
    range_download_video rangeEnvW "u".data "/cache".data "/cache/m_0.mp4".data 2097152 =
      (some ("/cache/n.mp4".data, some 5), [0, 1, 2], ["/cache/n.mp4".data]) := by
  have h := range_download_fallback rangeEnvW "u".data "/cache".data
    "/cache/m_0.mp4".data 2097152 5242880 (by decide) rfl (by decide)
    (Or.inl ⟨1, by decide, by decide⟩)
  exact h.trans (by decide)

/-- C2: whenever the hard ceiling is positive and the largest probed
video size exceeds it, `process_metadata` aborts up front: the record
gets `exceeds_max_size = true`, `has_valid_media = false` and empty
`file_paths`, and no URL is ever handed to a cache download, so no
bytes of any video reach the cache. -/
theorem process_metadata_exceeds_abort (c : DMConfig) (e : NetEnv) (m : Meta)
    (h1 : 0 < c.max_video_size_mb)
    (h2 : validSizes (groupSizes e m.video_urls) ≠ [])
    (h3 : c.max_video_size_mb < maxRat (validSizes (groupSizes e m.video_urls))) :
    (process_metadata c e m).1.exceeds_max_size = some true ∧
    (process_metadata c e m).1.has_valid_media = some false ∧
    (process_metadata c e m).1.file_paths = some [] ∧
    (process_metadata c e m).2 = [] := by
  have hvu : m.video_urls ≠ [] := by
    intro h
    apply h2
    rw [h]
    rfl
  have hne : ¬(m.video_urls = [] ∧ m.image_urls = []) := fun h => hvu h.1
  unfold process_metadata
  rw [if_neg hne]
  simp only []
  rw [if_pos ⟨hvu, h1, h2, h3⟩]
  exact ⟨rfl, rfl, rfl, rfl⟩

theorem process_metadata_exceeds_abort_witness :
    (process_metadata cfgC2 envC2 metaC2).1.exceeds_max_size = some true ∧
    (process_metadata cfgC2 envC2 metaC2).1.has_valid_media = some false ∧
    (process_metadata cfgC2 envC2 metaC2).1.file_paths = some [] ∧
    (process_metadata cfgC2 envC2 metaC2).2 = [] :=
  process_metadata_exceeds_abort cfgC2 envC2 metaC2 (by decide) (by decide) (by decide)

/-- C1 counterexample: with pre-download off and one small 5 MB video
plus three image groups (spec scenario S1), the processed record's
`file_paths` holds only the three image slots — there is no null video
slot, so its length is neither 0 nor `len(video_urls)+len(image_urls)`:
in the small-media branch the code sets `file_paths =
image_file_paths` only. -/
theorem process_metadata_no_video_slots :
    (process_metadata cfgS1 envS1 metaS1).1.file_paths =
      some [some "/t/i1".data, some "/t/i2".data, some "/t/i3".data] ∧
    metaS1.video_urls.length = 1 ∧ metaS1.image_urls.length = 3 := by
  refine ⟨by decide, rfl, rfl⟩

/-- C6 counterexample: image group `[i1 (403 on validation), i2 (ok)]`
plus a valid group `[i3]`: the fallback succeeds for the first group
(its slot holds a temp path), yet the record carries
`has_access_denied = true`, because the flag is set from validating each
group's first URL only. -/
theorem process_metadata_access_denied_first_url :
    (process_metadata cfgS1 envC6 metaC6).1.has_access_denied = some true ∧
    (process_metadata cfgS1 envC6 metaC6).1.file_paths =
      some [some "/t/i2".data, some "/t/i3".data] := by
  refine ⟨by decide, by decide⟩

/-- C3: when `video_force_download` is set and no local file was
produced (pre-download disabled, or the pre-download failed), the video
is omitted from the outgoing record and is never emitted as a direct
URL. -/
theorem force_download_video_omitted (lf : Option Str) (u : Str) (h : lf = none) :
    emit_video true lf u = VideoEmission.omitted ∧
    ∀ v, emit_video true lf u ≠ VideoEmission.directUrl v := by
  subst h
  exact ⟨rfl, fun v hv => nomatch hv⟩

theorem force_download_video_omitted_witness :
    emit_video true none "http://v".data = VideoEmission.omitted ∧
    ∀ v, emit_video true none "http://v".data ≠ VideoEmission.directUrl v :=
  force_download_video_omitted none "http://v".data rfl

theorem largeBranch_access (c : DMConfig) (e : NetEnv) (m3 : Meta)
    (vs : List (Option Rat)) (b : Bool) :
    (largeBranch c e m3 vs b).1.has_access_denied = m3.has_access_denied := by
  unfold largeBranch
  simp only []
  split
  · split
    · rfl
    · split <;> rfl
  · rfl

theorem smallBranch_access (e : NetEnv) (m3 : Meta) (vs : List (Option Rat))
    (b1 b2 : Bool) :
    (smallBranch e m3 vs b1 b2).1.has_access_denied = m3.has_access_denied := rfl

theorem mainFlow_access (c : DMConfig) (e : NetEnv) (m : Meta) :
    (mainFlow c e m).1.has_access_denied =
      some (imageAccessDenied e m.image_urls || videoAccessDenied e m.video_urls) := by
  unfold mainFlow
  simp only []
  split
  · rfl
  · split
    · rfl
    · split
      · rw [largeBranch_access]
      · rw [smallBranch_access]

/-- C6 amended: `has_access_denied` is set from validating each image
group's first URL only: whenever the first URL of some image group
fails validation with HTTP 403, the processed record carries
`has_access_denied = true` even if a later URL of that group succeeds
(fallback success does not clear the flag). -/
theorem image_403_sets_access_denied (c : DMConfig) (e : NetEnv) (m : Meta)
    (hpre : ¬(c.pre_download_all_media ∧ c.cache_dir_available))
    (habort : ¬(m.video_urls ≠ [] ∧ 0 < c.max_video_size_mb ∧
      validSizes (groupSizes e m.video_urls) ≠ [] ∧
      c.max_video_size_mb < maxRat (validSizes (groupSizes e m.video_urls))))
    (hgrp : ∃ g ∈ m.image_urls, (validateGroup e g).1 = false ∧
      (validateGroup e g).2 = some 403) :
    (process_metadata c e m).1.has_access_denied = some true := by
  obtain ⟨g, hm, hv, hs⟩ := hgrp
  have hiu : m.image_urls ≠ [] := by
    intro h
    rw [h] at hm
    cases hm
  have hne : ¬(m.video_urls = [] ∧ m.image_urls = []) := fun h => hiu h.2
  unfold process_metadata
  rw [if_neg hne]
  simp only []
  rw [if_neg habort, if_neg hpre, mainFlow_access]
  have hiad : imageAccessDenied e m.image_urls = true := by
    unfold imageAccessDenied
    rw [List.any_eq_true]
    exact ⟨g, hm, by simp [hv, hs]⟩
  rw [hiad]
  rfl

theorem image_403_sets_access_denied_witness :
    (process_metadata cfgS1 envC6 metaC6).1.has_access_denied = some true :=
  image_403_sets_access_denied cfgS1 envC6 metaC6 (by decide) (by decide) (by decide)

theorem pre_download_media_length (e : NetEnv) (items : List (List Str)) :
    (pre_download_media e items).1.length = items.length := by
  induction items with
  | nil => rfl
  | cons g gs ih =>
    simp only [pre_download_media, List.foldr_cons] at ih ⊢
    simp [ih]

theorem procResults_length (gs : List (List Str)) (rs : List DLResult) :
    (procResults gs rs).1.length = gs.length := by
  induction gs generalizing rs with
  | nil => rfl
  | cons g gs ih =>
    cases rs with
    | nil => simp [procResults, ih]
    | cons r rs =>
      rw [procResults]
      split <;> simp [ih]

theorem processDownloadResults_length (vu iu : List (List Str))
    (rs : List DLResult) :
    (processDownloadResults vu iu rs).1.length = vu.length + iu.length := by
  simp [processDownloadResults, procResults_length]

theorem resultsToPaths_length (rs : List DLResult) :
    (resultsToPaths rs).1.length = rs.length := by
  induction rs with
  | nil => rfl
  | cons r rs ih =>
    rw [resultsToPaths]
    split <;> simp [ih]

theorem download_images_length (e : NetEnv) (iu : List (List Str)) (b : Bool) :
    (download_images e iu b).1 = [] ∨ (download_images e iu b).1.length = iu.length := by
  unfold download_images
  split
  · right
    simp
  · left
    rfl

theorem preDownloadBranch_file_paths (c : DMConfig) (e : NetEnv) (m : Meta)
    (pc : Option (List (Option Rat))) :
    ∃ l, (preDownloadBranch c e m pc).1.file_paths = some l ∧
      (l.length = 0 ∨ l.length = m.video_urls.length + m.image_urls.length) := by
  unfold preDownloadBranch
  simp only []
  split
  · split
    · exact ⟨[], rfl, Or.inl rfl⟩
    · exact ⟨_, rfl, Or.inr (processDownloadResults_length _ _ _)⟩
  · exact ⟨_, rfl, Or.inr (processDownloadResults_length _ _ _)⟩

theorem largeFinish_fp (m4 : Meta) (dl : List DLResult × List Str)
    (di : List (Option Str) × Nat) (fp : List (Option Str)) (fvc : Nat) :
    (largeFinish m4 dl di fp fvc).1.file_paths = some fp := rfl

theorem largeBranch_file_paths (c : DMConfig) (e : NetEnv) (m3 : Meta)
    (vs : List (Option Rat)) (b : Bool) :
    ∃ l, (largeBranch c e m3 vs b).1.file_paths = some l ∧
      (l.length = 0 ∨ l.length = m3.video_urls.length + m3.image_urls.length ∨
       l.length = m3.video_urls.length) := by
  have hrp : (resultsToPaths
      (pre_download_media e (m3.video_urls.filter (fun g => g ≠ []))).1).1.length ≤
      m3.video_urls.length := by
    rw [resultsToPaths_length, pre_download_media_length]
    exact List.length_filter_le _ _
  have hvp : ((resultsToPaths
      (pre_download_media e (m3.video_urls.filter (fun g => g ≠ []))).1).1 ++
      List.replicate (m3.video_urls.length - (resultsToPaths
        (pre_download_media e (m3.video_urls.filter (fun g => g ≠ []))).1).1.length)
        none).length = m3.video_urls.length := by
    rw [List.length_append, List.length_replicate, Nat.add_sub_cancel' hrp]
  unfold largeBranch
  simp only []
  split
  · split
    · exact ⟨[], rfl, Or.inl rfl⟩
    · rcases download_images_length e m3.image_urls b with h | h
      · refine ⟨_, largeFinish_fp _ _ _ _ _, Or.inr (Or.inr ?_)⟩
        rw [List.length_append, hvp, h]
        rfl
      · refine ⟨_, largeFinish_fp _ _ _ _ _, Or.inr (Or.inl ?_)⟩
        rw [List.length_append, hvp, h]
  · rcases download_images_length e m3.image_urls b with h | h
    · refine ⟨_, largeFinish_fp _ _ _ _ _, Or.inr (Or.inr ?_)⟩
      rw [List.length_append, hvp, h]
      rfl
    · refine ⟨_, largeFinish_fp _ _ _ _ _, Or.inr (Or.inl ?_)⟩
      rw [List.length_append, hvp, h]

theorem smallBranch_file_paths (e : NetEnv) (m3 : Meta) (vs : List (Option Rat))
    (b1 b2 : Bool) :
    ∃ l, (smallBranch e m3 vs b1 b2).1.file_paths = some l ∧
      (l.length = 0 ∨ l.length = m3.image_urls.length) := by
  unfold smallBranch
  rcases download_images_length e m3.image_urls b1 with h | h
  · refine ⟨_, rfl, Or.inl ?_⟩
    rw [h]
    rfl
  · exact ⟨_, rfl, Or.inr h⟩

theorem mainFlow_file_paths (c : DMConfig) (e : NetEnv) (m : Meta)
    (habort2 : ¬(0 < c.max_video_size_mb ∧
      validSizes (groupSizes e m.video_urls) ≠ [] ∧
      c.max_video_size_mb < maxRat (validSizes (groupSizes e m.video_urls)))) :
    ∃ l, (mainFlow c e m).1.file_paths = some l ∧
      (l.length = 0 ∨ l.length = m.video_urls.length + m.image_urls.length ∨
       l.length = m.video_urls.length ∨ l.length = m.image_urls.length) := by
  unfold mainFlow
  simp only []
  by_cases hvm0 : (!(validSizes (groupSizes e m.video_urls)).isEmpty ||
      hasValidImages e m.image_urls) = false
  · rw [if_pos hvm0]
    exact ⟨[], rfl, Or.inl rfl⟩
  · rw [if_neg hvm0]
    by_cases hcl : 0 < c.max_video_size_mb ∧
        validSizes (groupSizes e m.video_urls) ≠ [] ∧
        c.max_video_size_mb < maxRat (validSizes (groupSizes e m.video_urls))
    · exact absurd hcl habort2
    · rw [if_neg hcl]
      by_cases hlg : (0 < c.large_video_threshold_mb ∧
          validSizes (groupSizes e m.video_urls) ≠ [] ∧
          c.large_video_threshold_mb < maxRat (validSizes (groupSizes e m.video_urls))) ∧
          c.cache_dir_available = true
      · rw [if_pos hlg]
        obtain ⟨l, hl, hlen⟩ := largeBranch_file_paths c e _
          (groupSizes e m.video_urls) (hasValidImages e m.image_urls)
        exact ⟨l, hl, hlen.imp id (Or.imp id Or.inl)⟩
      · rw [if_neg hlg]
        obtain ⟨l, hl, hlen⟩ := smallBranch_file_paths e _
          (groupSizes e m.video_urls) (hasValidImages e m.image_urls)
          (!(validSizes (groupSizes e m.video_urls)).isEmpty)
        exact ⟨l, hl, hlen.imp id (fun h => Or.inr (Or.inr h))⟩

/-- C1 amended: every record returned by `process_metadata` carries a
`file_paths` key, and its length is 0, or one slot per group
(`len(video_urls) + len(image_urls)`, pre-download branch), or
`len(video_urls)` (large-media branch with no valid image), or
`len(image_urls)` (small-media branch: image slots only, with no null
video slots ahead of them). -/
theorem process_metadata_file_paths_length (c : DMConfig) (e : NetEnv) (m : Meta) :
    ∃ l, (process_metadata c e m).1.file_paths = some l ∧
      (l.length = 0 ∨ l.length = m.video_urls.length + m.image_urls.length ∨
       l.length = m.video_urls.length ∨ l.length = m.image_urls.length) := by
  unfold process_metadata
  split
  · exact ⟨[], rfl, Or.inl rfl⟩
  · simp only []
    split
    · exact ⟨[], rfl, Or.inl rfl⟩
    · rename_i hne habort
      split
      · obtain ⟨l, hl, hlen⟩ := preDownloadBranch_file_paths c e m
          (if m.video_urls ≠ [] ∧ 0 < c.max_video_size_mb
            then some (groupSizes e m.video_urls) else none)
        exact ⟨l, hl, hlen.imp id Or.inl⟩
      · have habort2 : ¬(0 < c.max_video_size_mb ∧
            validSizes (groupSizes e m.video_urls) ≠ [] ∧
            c.max_video_size_mb < maxRat (validSizes (groupSizes e m.video_urls))) := by
          intro hx
          apply habort
          refine ⟨?_, hx.1, hx.2.1, hx.2.2⟩
          intro h0
          apply hx.2.1
          rw [h0]
          rfl
        exact mainFlow_file_paths c e m habort2

end MediaParser
